import Mathlib

/-!
Shallow embedding of the oklink_processor program (src/src/main.rs).

The program fetches a paginated inscription-transaction history from the
OKLink explorer API, normalizes raw string-typed records into a typed
domain model, and projects the result to a fixed-schema CSV.

Rust `Result<T, Box<dyn Error>>` values are modelled by `RustOutcome`,
which additionally has a `panic` constructor used to model a Rust panic
(needed because the chrono `From<SystemTime>` conversion used by
`unix_to_datetime` unwraps an out-of-range datetime).  Machine integers
are modelled by `Nat`/`Int` with explicit bounds where the source checks
them.  External library behavior that the program relies on
(`U256::from_dec_str` of the uint crate, `u64`/`i32` `from_str` of the
Rust core library, the chrono datetime conversion and formatting) is
embedded faithfully from those libraries, since the source calls into
them directly.
-/

deriving instance DecidableEq for Except

namespace Oklink

/-- Outcome of running a fallible piece of Rust code: a value, an error
(carrying the rendered error message), or a panic. -/
inductive RustOutcome (α : Type) where
  | ok : α → RustOutcome α
  | err : String → RustOutcome α
  | panic : RustOutcome α
deriving DecidableEq, Repr

/-- Lift a Rust Result (which cannot panic) into RustOutcome. -/
def Except.toOutcome : Except String α → RustOutcome α
  | .ok a => .ok a
  | .error e => .err e

/-- Embeds `enum Action \x7b Mint, Transfer \x7d` of main.rs. -/
inductive Action where
  | Mint
  | Transfer
deriving DecidableEq, Repr

/-- Embeds `impl FromStr for Action` (main.rs lines 15-25). -/
def Action.from_str (input : String) : Except String Action :=
  if input = "mint" then .ok .Mint
  else if input = "transfer" then .ok .Transfer
  else .error ("Unknown action: " ++ input)

/-- Embeds the derived Display for Action: prints the variant name. -/
def Action.display : Action → String
  | .Mint => "Mint"
  | .Transfer => "Transfer"

/-- Embeds `enum Category \x7b Buy, Mint \x7d` of main.rs. -/
inductive Category where
  | Buy
  | Mint
deriving DecidableEq, Repr

/-- Embeds `impl Display for Category` (main.rs lines 34-45). -/
def Category.display : Category → String
  | .Buy => "buy"
  | .Mint => "mint"

/-- Embeds `enum State \x7b Success \x7d` of main.rs. -/
inductive State where
  | Success
deriving DecidableEq, Repr

/-- Embeds `impl FromStr for State` (main.rs lines 57-66). -/
def State.from_str (input : String) : Except String State :=
  if input = "success" then .ok .Success
  else .error ("Unknown state: " ++ input)

/-- Embeds `enum TokenType \x7b BRC20 \x7d` of main.rs. -/
inductive TokenType where
  | BRC20
deriving DecidableEq, Repr

/-- Embeds `impl FromStr for TokenType` (main.rs lines 75-84). -/
def TokenType.from_str (input : String) : Except String TokenType :=
  if input = "BRC20" then .ok .BRC20
  else .error ("Unknown token type: " ++ input)

/-- Embeds the derived Display for TokenType: prints the variant name. -/
def TokenType.display : TokenType → String
  | .BRC20 => "BRC20"

/-- Error type of `U256::from_dec_str` in the uint crate. -/
inductive FromDecStrErr where
  | InvalidCharacter
  | InvalidLength
deriving DecidableEq, Repr

/-- Debug rendering of FromDecStrErr, as produced by
`map_err(|e| format!("\x7b:?\x7d", e))` in process_inscription. -/
def FromDecStrErr.debugFmt : FromDecStrErr → String
  | .InvalidCharacter => "InvalidCharacter"
  | .InvalidLength => "InvalidLength"

/-- The number of values of a 256-bit unsigned integer. -/
def U256.size : Nat := 2 ^ 256

/-- Loop of `U256::from_dec_str` (uint crate): consume bytes left to
right; a non-digit byte is InvalidCharacter; multiply-accumulate with an
overflow check against 2^256, overflow is InvalidLength. -/
def U256.from_dec_str_aux (res : Nat) : List Char → Except FromDecStrErr Nat
  | [] => .ok res
  | c :: cs =>
    if c.isDigit then
      let r := res * 10 + (c.toNat - 48)
      if r < U256.size then U256.from_dec_str_aux r cs
      else .error .InvalidLength
    else .error .InvalidCharacter

/-- Embeds `U256::from_dec_str` (uint crate), called in
process_inscription (main.rs line 217). -/
def U256.from_dec_str (s : String) : Except FromDecStrErr Nat :=
  U256.from_dec_str_aux 0 s.data

/-- Embeds the Display of U256: the exact base-10 representation. -/
def U256.display (n : Nat) : String := Nat.repr n

/-- Numeric value of a digit string (most significant digit first):
the reference value function used to state parsing correctness. -/
def dec_value (cs : List Char) : Nat :=
  cs.foldl (fun a c => a * 10 + (c.toNat - 48)) 0

/-- Fold digits onto an accumulator; `dec_value cs = dec_fold 0 cs`. -/
def dec_fold (acc : Nat) (cs : List Char) : Nat :=
  cs.foldl (fun a c => a * 10 + (c.toNat - 48)) acc

/-- Digit loop of the Rust core from_str_radix for u64: each character
is checked to be a digit and then multiply-accumulated with an
overflow check against 2^64, in a single left-to-right pass, so the
first offending character decides the error.  The error strings are
the Display messages of ParseIntError. -/
def u64_parse_digits : List Char → Nat → Except String Nat
  | [], acc => .ok acc
  | c :: cs, acc =>
    if c.isDigit then
      let r := acc * 10 + (c.toNat - 48)
      if r < 2 ^ 64 then u64_parse_digits cs r
      else .error "number too large to fit in target type"
    else .error "invalid digit found in string"

/-- Embeds `u64::from_str` of the Rust core library: optional leading
plus sign, then a nonempty run of decimal digits, value below 2^64. -/
def u64.from_str (s : String) : Except String Nat :=
  match s.data with
  | [] => .error "cannot parse integer from empty string"
  | c :: cs =>
    let ds := if c = '+' then cs else c :: cs
    match ds with
    | [] => .error "invalid digit found in string"
    | _ :: _ => u64_parse_digits ds 0

/-- Digit loop of the Rust core from_str_radix for i32.  The magnitude
is accumulated with a per-character bound check: at most 2^31 - 1 for
a positive parse and 2^31 for a negative one. -/
def i32_parse_digits (neg : Bool) : List Char → Nat → Except String Int
  | [], acc => .ok (if neg then -(acc : Int) else (acc : Int))
  | c :: cs, acc =>
    if c.isDigit then
      let r := acc * 10 + (c.toNat - 48)
      if (if neg then r ≤ 2 ^ 31 else r < 2 ^ 31) then i32_parse_digits neg cs r
      else .error (if neg then "number too small to fit in target type"
                   else "number too large to fit in target type")
    else .error "invalid digit found in string"

/-- Embeds `i32::from_str` of the Rust core library: optional sign,
then a nonempty run of decimal digits, within the i32 bounds. -/
def i32.from_str (s : String) : Except String Int :=
  match s.data with
  | [] => .error "cannot parse integer from empty string"
  | c :: cs =>
    let (neg, ds) :=
      if c = '+' then (false, cs)
      else if c = '-' then (true, cs)
      else (false, c :: cs)
    match ds with
    | [] => .error "invalid digit found in string"
    | _ :: _ => i32_parse_digits neg ds 0

/-- A chrono `DateTime<Utc>` constructed from the unix epoch plus a
millisecond duration: modelled by the milliseconds since the epoch. -/
structure DateTimeUtc where
  ms : Nat
deriving DecidableEq, Repr

/-- Gregorian calendar date from a count of days since 1970-01-01
(the civil-from-days algorithm, as used by chrono): (year, month, day). -/
def civilFromDays (days : Nat) : Nat × Nat × Nat :=
  let z := days + 719468
  let era := z / 146097
  let doe := z % 146097
  let yoe := (doe - doe / 1460 + doe / 36524 - doe / 146096) / 365
  let y := yoe + era * 400
  let doy := doe - (365 * yoe + yoe / 4 - yoe / 100)
  let mp := (5 * doy + 2) / 153
  let d := doy - (153 * mp + 2) / 5 + 1
  let m := if mp < 10 then mp + 3 else mp - 9
  (if m ≤ 2 then y + 1 else y, m, d)

/-- Calendar view of a DateTimeUtc:
(year, month, day, hour, minute, second), all in UTC. -/
def DateTimeUtc.toCalendar (dt : DateTimeUtc) : Nat × Nat × Nat × Nat × Nat × Nat :=
  let secs := dt.ms / 1000
  let days := secs / 86400
  let rem := secs % 86400
  let c := civilFromDays days
  (c.1, c.2.1, c.2.2, rem / 3600, rem % 3600 / 60, rem % 60)

/-- The greatest unix second chrono can represent as a NaiveDateTime:
the last second of 262143-12-31 UTC (chrono MAX_YEAR is 262143).
A later instant makes `DateTime::<Utc>::from(SystemTime)` panic, since
that conversion unwraps `timestamp_opt`. -/
def chronoMaxSecs : Nat := 8210298412799

/-- Embeds `unix_to_datetime` (main.rs lines 284-288): parse the string
as a u64 millisecond count, add it to the unix epoch, and convert to a
chrono datetime.  The conversion panics when the instant is beyond the
chrono-representable range. -/
def unix_to_datetime (timestamp : String) : RustOutcome DateTimeUtc :=
  match u64.from_str timestamp with
  | .error e => .err e
  | .ok ms =>
    if ms / 1000 ≤ chronoMaxSecs then .ok ⟨ms⟩ else .panic

/-- Embeds `struct InscriptionRaw` (main.rs lines 127-138). -/
structure InscriptionRaw where
  actionType : String
  amount : String
  fromAddress : String
  inscriptionId : String
  state : String
  time : String
  toAddress : String
  token : String
  tokenType : String
  txId : String
deriving DecidableEq, Repr

/-- Embeds `struct Inscription` (main.rs lines 108-121).  Note the
state field is present on the record (marked dead_code in the source). -/
structure Inscription where
  action : Action
  amount : Nat
  date_time : DateTimeUtc
  from_address : String
  inscription_id : String
  state : State
  to_address : String
  token : String
  token_type : TokenType
  tx_id : String
deriving DecidableEq, Repr

/-- Embeds `struct Pagination` (main.rs lines 142-146). -/
structure Pagination where
  inscriptions : List Inscription
  page : Int
  total_pages : Int
deriving DecidableEq, Repr

/-- Embeds `struct PaginationRaw` (main.rs lines 152-158). -/
structure PaginationRaw where
  inscriptionsList : List InscriptionRaw
  limit : String
  page : String
  totalPage : String
  totalTransaction : String
deriving DecidableEq, Repr

/-- Embeds `struct ResponseRaw` (main.rs lines 163-165). -/
structure ResponseRaw where
  data : List PaginationRaw
deriving DecidableEq, Repr

/-- Embeds `process_inscription` (main.rs lines 215-233): validate the
action, the amount, the timestamp, the state and the token type in that
order, copying the remaining string fields over unchanged. -/
def process_inscription (raw : InscriptionRaw) : RustOutcome Inscription :=
  match Action.from_str raw.actionType with
  | .error e => .err e
  | .ok action =>
    match U256.from_dec_str raw.amount with
    | .error e => .err e.debugFmt
    | .ok amount =>
      match unix_to_datetime raw.time with
      | .err e => .err e
      | .panic => .panic
      | .ok date_time =>
        match State.from_str raw.state with
        | .error e => .err e
        | .ok state =>
          match TokenType.from_str raw.tokenType with
          | .error e => .err e
          | .ok token_type =>
            .ok { action := action, amount := amount, date_time := date_time,
                  from_address := raw.fromAddress,
                  inscription_id := raw.inscriptionId,
                  state := state,
                  to_address := raw.toAddress,
                  token := raw.token,
                  token_type := token_type,
                  tx_id := raw.txId }

/-- Embeds the `collect::<Result<Vec<_>, _>>()` over
`map(process_inscription)` in process_pagination: normalize each raw
record in order, stopping at the first failure. -/
def traverse_inscriptions : List InscriptionRaw → RustOutcome (List Inscription)
  | [] => .ok []
  | r :: rs =>
    match process_inscription r with
    | .err e => .err e
    | .panic => .panic
    | .ok i =>
      match traverse_inscriptions rs with
      | .err e => .err e
      | .panic => .panic
      | .ok is => .ok (i :: is)

/-- Embeds `process_pagination` (main.rs lines 236-250): normalize all
records, then parse the page and totalPage counter strings as i32. -/
def process_pagination (raw : PaginationRaw) : RustOutcome Pagination :=
  match traverse_inscriptions raw.inscriptionsList with
  | .err e => .err e
  | .panic => .panic
  | .ok inscriptions =>
    match i32.from_str raw.page with
    | .error e => .err e
    | .ok page =>
      match i32.from_str raw.totalPage with
      | .error e => .err e
      | .ok total_pages =>
        .ok { inscriptions := inscriptions, page := page, total_pages := total_pages }

/-- Embeds `process_response` (main.rs lines 253-260): take the first
pagination block of the data array, failing when the array is empty. -/
def process_response (raw : ResponseRaw) : RustOutcome Pagination :=
  match raw.data with
  | [] => .err "No Pagination found"
  | p :: _ => process_pagination p

/-- Embeds `fetch_pages` (main.rs lines 187-212).  The network plus
JSON decode of the request for a given API page number is modelled by
the `responses` function (an error models a transport or decode
failure).  The recursion of the source need not terminate (termination
is driven solely by the reported counters), so the embedding takes a
fuel argument; `none` means the recursion was still running after
`fuel` iterations. -/
def fetch_pages (responses : Nat → Except String ResponseRaw)
    (inscriptions : List Inscription) (page : Nat) :
    Nat → Option (RustOutcome (List Inscription))
  | 0 => none
  | fuel + 1 =>
    match responses (page + 1) with
    | .error e => some (.err e)
    | .ok raw =>
      match process_response raw with
      | .err e => some (.err e)
      | .panic => some .panic
      | .ok pagination =>
        let acc := inscriptions ++ pagination.inscriptions
        if pagination.page = pagination.total_pages then some (.ok acc)
        else fetch_pages responses acc (page + 1) fuel

/-- Embeds `struct CsvRow` (main.rs lines 95-104). -/
structure CsvRow where
  timestamp : String
  category : String
  base_currency : String
  base_amount : String
  from_ : String
  to_ : String
  hash : String
  description : String
deriving DecidableEq, Repr

/-- Zero-pad a number to two digits, as the chrono format specifiers
for month, day, hour, minute and second do. -/
def pad2 (n : Nat) : String :=
  if n < 10 then "0" ++ Nat.repr n else Nat.repr n

/-- Zero-pad a number to four digits, as the chrono year specifier
does; chrono prints years above 9999 with an explicit plus sign. -/
def pad4 (n : Nat) : String :=
  if n < 10 then "000" ++ Nat.repr n
  else if n < 100 then "00" ++ Nat.repr n
  else if n < 1000 then "0" ++ Nat.repr n
  else if n < 10000 then Nat.repr n
  else "+" ++ Nat.repr n

/-- Embeds the chrono formatting with specifier "%Y/%m/%d %H:%M:%S"
used in to_csv_row. -/
def formatTimestamp (dt : DateTimeUtc) : String :=
  let c := dt.toCalendar
  pad4 c.1 ++ "/" ++ pad2 c.2.1 ++ "/" ++ pad2 c.2.2.1 ++ " " ++
    pad2 c.2.2.2.1 ++ ":" ++ pad2 c.2.2.2.2.1 ++ ":" ++ pad2 c.2.2.2.2.2

/-- Embeds `to_csv_row` (main.rs lines 263-281). -/
def to_csv_row (inscription : Inscription) : CsvRow :=
  let category : Category :=
    match inscription.action with
    | .Mint => .Mint
    | .Transfer => .Buy
  { timestamp := formatTimestamp inscription.date_time,
    category := category.display,
    base_currency := inscription.token,
    base_amount := U256.display inscription.amount,
    from_ := inscription.from_address,
    to_ := inscription.to_address,
    hash := inscription.tx_id,
    description := inscription.token_type.display ++ " " ++
      inscription.action.display ++ " with inscription_id " ++
      inscription.inscription_id }

/-- The header record written by write_csv (main.rs lines 297-311). -/
def csv_header : List String :=
  ["Timestamp (UTC)", "Type", "Base Currency", "Base Amount",
   "Quote Currency", "Quote Amount", "Fee Currency", "Fee Amount",
   "From", "To", "Blockchain", "ID", "Description"]

/-- The data record written for one row by write_csv
(main.rs lines 313-327). -/
def csv_record (row : CsvRow) : List String :=
  [row.timestamp, row.category, row.base_currency, row.base_amount,
   "", "", "", "",
   row.from_, row.to_, "Bitcoin", row.hash, row.description]

/-- Embeds the record stream produced by `write_csv`
(main.rs lines 291-332): the header followed by one record per
inscription, in order.  The file path side effects are outside the
data model. -/
def write_csv (inscriptions : List Inscription) : List (List String) :=
  csv_header :: inscriptions.map (fun i => csv_record (to_csv_row i))

/-- Embeds the data path of `main` (main.rs lines 168-181): run the
pagination walk from page counter 0 with an empty accumulator, and on
success produce the CSV records; any fetch failure aborts before
anything is written. -/
def main_rows (responses : Nat → Except String ResponseRaw) (fuel : Nat) :
    Option (RustOutcome (List (List String))) :=
  match fetch_pages responses [] 0 fuel with
  | none => none
  | some (.ok inscriptions) => some (.ok (write_csv inscriptions))
  | some (.err e) => some (.err e)
  | some .panic => some .panic

/-- A concrete raw record all of whose validated fields are valid. -/
def demoRaw : InscriptionRaw :=
  { actionType := "mint", amount := "1000", fromAddress := "addr1",
    inscriptionId := "insc1", state := "success", time := "1685092041000",
    toAddress := "addr2", token := "sats", tokenType := "BRC20", txId := "tx1" }

/-- The Inscription the record normalizer produces from demoRaw. -/
def demoInscription : Inscription :=
  { action := .Mint, amount := 1000, date_time := ⟨1685092041000⟩,
    from_address := "addr1", inscription_id := "insc1", state := .Success,
    to_address := "addr2", token := "sats", token_type := .BRC20, tx_id := "tx1" }

/-- The hardcoded chronoMaxSecs is indeed the last second of
262143-12-31 UTC under the calendar model. -/
theorem chronoMaxSecs_calendar :
    civilFromDays (chronoMaxSecs / 86400) = (262143, 12, 31) ∧
      chronoMaxSecs % 86400 = 86399 := by decide

/-- State has a single inhabitant. -/
theorem state_eq_success (x : State) : x = State.Success := by cases x; rfl

/-- The CSV projection never reads the state field of an Inscription. -/
theorem to_csv_row_state_independent (i : Inscription) (s : State) :
    to_csv_row { i with state := s } = to_csv_row i := by
  cases i; cases s; rfl

/-- C2: each domain value parser accepts exactly its closed vocabulary
by exact string match (mint and transfer for actions, success for the
status, BRC20 for the token standard) and fails with a descriptive
error on every other string, with no trimming or case folding. -/
theorem C2_domain_value_parsers (s : String) :
    (Action.from_str s = .ok .Mint ↔ s = "mint") ∧
    (Action.from_str s = .ok .Transfer ↔ s = "transfer") ∧
    (s ≠ "mint" → s ≠ "transfer" →
      Action.from_str s = .error ("Unknown action: " ++ s)) ∧
    (State.from_str s = .ok .Success ↔ s = "success") ∧
    (s ≠ "success" → State.from_str s = .error ("Unknown state: " ++ s)) ∧
    (TokenType.from_str s = .ok .BRC20 ↔ s = "BRC20") ∧
    (s ≠ "BRC20" → TokenType.from_str s = .error ("Unknown token type: " ++ s)) := by
  refine ⟨?_, ?_, ?_, ?_, ?_, ?_, ?_⟩ <;>
    simp only [Action.from_str, State.from_str, TokenType.from_str] <;>
    split_ifs <;> simp_all

/-- Witness for C2 at concrete inputs, including a case variant. -/
theorem C2_domain_value_parsers_witness :
    Action.from_str "transfer" = .ok .Transfer ∧
    State.from_str "Success" = .error ("Unknown state: " ++ "Success") ∧
    TokenType.from_str "brc20" = .error ("Unknown token type: " ++ "brc20") := by
  refine ⟨?_, ?_, ?_⟩
  · exact ((C2_domain_value_parsers "transfer").2.1).mpr rfl
  · exact (C2_domain_value_parsers "Success").2.2.2.2.1 (by decide)
  · exact (C2_domain_value_parsers "brc20").2.2.2.2.2.2 (by decide)

/-- C6: unix_to_datetime reads the string as a unix time in
milliseconds and yields the corresponding UTC instant, failing on
non-numeric input; 1685092041000 ms is 2023-05-26T09:07:21Z. -/
theorem C6_unix_to_datetime_ms (s : String) :
    (∀ e, u64.from_str s = .error e → unix_to_datetime s = .err e) ∧
    (∀ ms, u64.from_str s = .ok ms → ms / 1000 ≤ chronoMaxSecs →
      unix_to_datetime s = .ok ⟨ms⟩) ∧
    unix_to_datetime "1685092041000" = .ok ⟨1685092041000⟩ ∧
    DateTimeUtc.toCalendar ⟨1685092041000⟩ = (2023, 5, 26, 9, 7, 21) := by
  refine ⟨?_, ?_, by decide, by decide⟩
  · intro e h; simp [unix_to_datetime, h]
  · intro ms h hle; simp [unix_to_datetime, h, hle]

/-- Witness for C6 at concrete inputs. -/
theorem C6_unix_to_datetime_ms_witness :
    unix_to_datetime "not-a-number" = .err "invalid digit found in string" ∧
    unix_to_datetime "12" = .ok ⟨12⟩ := by
  constructor
  · exact (C6_unix_to_datetime_ms "not-a-number").1 _ (by decide)
  · exact (C6_unix_to_datetime_ms "12").2.1 12 (by decide) (by decide)

/-- C7: the CSV row projection (total by construction) maps Mint to the
mint category and Transfer to the buy category, formats the timestamp
as YYYY/MM/DD HH:MM:SS in UTC, synthesizes the description from the
token standard, the action and the inscription id, renders the amount
as an exact base-10 string, and produces exactly the expected row on
the concrete example inscription. -/
theorem C7_to_csv_row_projection (i : Inscription) :
    (i.action = .Mint → (to_csv_row i).category = "mint") ∧
    (i.action = .Transfer → (to_csv_row i).category = "buy") ∧
    (to_csv_row i).timestamp = formatTimestamp i.date_time ∧
    (to_csv_row i).base_amount = U256.display i.amount ∧
    (to_csv_row i).description =
      i.token_type.display ++ " " ++ i.action.display ++
        " with inscription_id " ++ i.inscription_id ∧
    DateTimeUtc.toCalendar ⟨1688693025000⟩ = (2023, 7, 7, 1, 23, 45) ∧
    to_csv_row
      { action := .Transfer, amount := 1000, date_time := ⟨1688693025000⟩,
        from_address := "from", inscription_id := "inscription_id",
        state := .Success, to_address := "to", token := "sats",
        token_type := .BRC20, tx_id := "hash" } =
      { timestamp := "2023/07/07 01:23:45", category := "buy",
        base_currency := "sats", base_amount := "1000", from_ := "from",
        to_ := "to", hash := "hash",
        description := "BRC20 Transfer with inscription_id inscription_id" } := by
  refine ⟨?_, ?_, rfl, rfl, rfl, by decide, by decide⟩
  · intro h; simp [to_csv_row, h, Category.display]
  · intro h; simp [to_csv_row, h, Category.display]

/-- Witness for C7 at a concrete inscription. -/
theorem C7_to_csv_row_projection_witness :
    (to_csv_row demoInscription).category = "mint" :=
  (C7_to_csv_row_projection demoInscription).1 rfl

/-- C9 counterexample: the record normalizer does retain the validated
status on the constructed Inscription, as its state field. -/
theorem C9_counterexample :
    process_inscription demoRaw = .ok demoInscription ∧
      demoInscription.state = State.Success :=
  ⟨by decide, rfl⟩

/-- C9 amended: the status is consumed as a validation gate during
record normalization, and although the parsed State value is stored in
the state field of the Inscription, no consumer reads it: the CSV
projection is independent of it. -/
theorem C9_state_validation_gate (raw : InscriptionRaw) (i : Inscription)
    (h : process_inscription raw = .ok i) :
    State.from_str raw.state = .ok i.state ∧
    ∀ s : State, to_csv_row { i with state := s } = to_csv_row i := by
  refine ⟨?_, fun s => to_csv_row_state_independent i s⟩
  rw [state_eq_success i.state]
  cases hA : Action.from_str raw.actionType with
  | error e => simp [process_inscription, hA] at h
  | ok a =>
    cases hU : U256.from_dec_str raw.amount with
    | error e => simp [process_inscription, hA, hU] at h
    | ok n =>
      cases hT : unix_to_datetime raw.time with
      | err e => simp [process_inscription, hA, hU, hT] at h
      | panic => simp [process_inscription, hA, hU, hT] at h
      | ok dt =>
        cases hS : State.from_str raw.state with
        | error e => simp [process_inscription, hA, hU, hT, hS] at h
        | ok st => rw [state_eq_success st]

/-- Witness for C9 amended at the concrete demo record. -/
theorem C9_state_validation_gate_witness :
    State.from_str demoRaw.state = .ok demoInscription.state ∧
    ∀ s : State,
      to_csv_row { demoInscription with state := s } = to_csv_row demoInscription :=
  C9_state_validation_gate demoRaw demoInscription (by decide)

/-- C10 counterexample: at the top of the u64 range the parsed
millisecond value is beyond the chrono-representable calendar range,
and the conversion panics instead of returning. -/
theorem C10_counterexample :
    unix_to_datetime "18446744073709551615" = .panic := by decide

/-- C10 amended: for every input string, unix_to_datetime either
returns a parse error, or returns the UTC instant when the parsed
millisecond value lies within the chrono-representable calendar range;
it panics exactly when the parsed value lies beyond that range. -/
theorem C10_unix_to_datetime_totality (s : String) :
    (unix_to_datetime s = .panic ↔
      ∃ ms, u64.from_str s = .ok ms ∧ chronoMaxSecs < ms / 1000) ∧
    (∀ ms, u64.from_str s = .ok ms → ms / 1000 ≤ chronoMaxSecs →
      unix_to_datetime s = .ok ⟨ms⟩) ∧
    (∀ e, u64.from_str s = .error e → unix_to_datetime s = .err e) := by
  refine ⟨⟨?_, ?_⟩, ?_, ?_⟩
  · intro hp
    cases h : u64.from_str s with
    | error e => simp [unix_to_datetime, h] at hp
    | ok ms =>
      refine ⟨ms, rfl, ?_⟩
      by_contra hgt
      have hle : ms / 1000 ≤ chronoMaxSecs := by omega
      simp [unix_to_datetime, h, hle] at hp
  · rintro ⟨ms, hok, hlt⟩
    have hn : ¬ ms / 1000 ≤ chronoMaxSecs := by omega
    simp [unix_to_datetime, hok, hn]
  · intro ms h hle; simp [unix_to_datetime, h, hle]
  · intro e h; simp [unix_to_datetime, h]

/-- Witness for C10 amended at concrete inputs. -/
theorem C10_unix_to_datetime_totality_witness :
    unix_to_datetime "1000" = .ok ⟨1000⟩ ∧
    unix_to_datetime "" = .err "cannot parse integer from empty string" := by
  constructor
  · exact (C10_unix_to_datetime_totality "1000").2.1 1000 (by decide) (by decide)
  · exact (C10_unix_to_datetime_totality "").2.2 _ (by decide)

/-- C1: record normalization validates action kind, amount, timestamp,
status and token standard in exactly that order; the first invalid
field aborts the record with the specific error of that field, producing no
Inscription; a fully valid record yields the Inscription whose
untransformed string fields are copied over unchanged. -/
theorem C1_process_inscription_order (raw : InscriptionRaw) :
    (∀ e, Action.from_str raw.actionType = .error e →
      process_inscription raw = .err e) ∧
    (∀ a e, Action.from_str raw.actionType = .ok a →
      U256.from_dec_str raw.amount = .error e →
      process_inscription raw = .err e.debugFmt) ∧
    (∀ a n e, Action.from_str raw.actionType = .ok a →
      U256.from_dec_str raw.amount = .ok n →
      unix_to_datetime raw.time = .err e →
      process_inscription raw = .err e) ∧
    (∀ a n dt e, Action.from_str raw.actionType = .ok a →
      U256.from_dec_str raw.amount = .ok n →
      unix_to_datetime raw.time = .ok dt →
      State.from_str raw.state = .error e →
      process_inscription raw = .err e) ∧
    (∀ a n dt st e, Action.from_str raw.actionType = .ok a →
      U256.from_dec_str raw.amount = .ok n →
      unix_to_datetime raw.time = .ok dt →
      State.from_str raw.state = .ok st →
      TokenType.from_str raw.tokenType = .error e →
      process_inscription raw = .err e) ∧
    (∀ a n dt st tt, Action.from_str raw.actionType = .ok a →
      U256.from_dec_str raw.amount = .ok n →
      unix_to_datetime raw.time = .ok dt →
      State.from_str raw.state = .ok st →
      TokenType.from_str raw.tokenType = .ok tt →
      process_inscription raw =
        .ok { action := a, amount := n, date_time := dt,
              from_address := raw.fromAddress,
              inscription_id := raw.inscriptionId, state := st,
              to_address := raw.toAddress, token := raw.token,
              token_type := tt, tx_id := raw.txId }) := by
  refine ⟨?_, ?_, ?_, ?_, ?_, ?_⟩ <;> intros <;> simp_all [process_inscription]

/-- Witness for C1 at concrete records: an unknown action aborts with
the action error; a non-success status aborts with the state error,
even though every earlier field is valid. -/
theorem C1_process_inscription_order_witness :
    process_inscription { demoRaw with actionType := "burn" } =
      .err "Unknown action: burn" ∧
    process_inscription { demoRaw with state := "fail" } =
      .err "Unknown state: fail" := by
  constructor
  · exact (C1_process_inscription_order _).1 _ (by decide)
  · exact (C1_process_inscription_order _).2.2.2.1 Action.Mint 1000
      ⟨1685092041000⟩ "Unknown state: fail"
      (by decide) (by decide) (by decide) (by decide)

/-- Folding one more digit. -/
theorem dec_fold_cons (acc : Nat) (c : Char) (cs : List Char) :
    dec_fold acc (c :: cs) = dec_fold (acc * 10 + (c.toNat - 48)) cs := rfl

/-- The digit fold never decreases the accumulator. -/
theorem le_dec_fold (acc : Nat) (cs : List Char) : acc ≤ dec_fold acc cs := by
  induction cs generalizing acc with
  | nil => exact Nat.le_refl acc
  | cons c cs ih =>
    rw [dec_fold_cons]
    exact Nat.le_trans (by omega) (ih (acc * 10 + (c.toNat - 48)))

/-- Characterization of the from_dec_str loop on all-digit input:
it returns the exact numeric value when that value fits in 256 bits
and the InvalidLength error otherwise. -/
theorem from_dec_str_aux_digits (cs : List Char) :
    ∀ acc, acc < U256.size → (∀ c ∈ cs, c.isDigit) →
      U256.from_dec_str_aux acc cs =
        if dec_fold acc cs < U256.size then .ok (dec_fold acc cs)
        else .error .InvalidLength := by
  induction cs with
  | nil =>
    intro acc hacc _
    simp [U256.from_dec_str_aux, dec_fold, hacc]
  | cons c cs ih =>
    intro acc hacc hd
    have hc : c.isDigit := hd c (List.mem_cons_self c cs)
    rw [U256.from_dec_str_aux, dec_fold_cons]
    simp only [hc, if_true]
    by_cases hr : acc * 10 + (c.toNat - 48) < U256.size
    · rw [if_pos hr, ih _ hr (fun x hx => hd x (List.mem_cons_of_mem c hx))]
    · rw [if_neg hr]
      have hge : ¬ dec_fold (acc * 10 + (c.toNat - 48)) cs < U256.size := by
        have := le_dec_fold (acc * 10 + (c.toNat - 48)) cs
        omega
      rw [if_neg hge]

/-- A successful from_dec_str run means every character was a digit. -/
theorem from_dec_str_aux_ok_digits (cs : List Char) :
    ∀ acc v, U256.from_dec_str_aux acc cs = .ok v → ∀ c ∈ cs, c.isDigit := by
  induction cs with
  | nil => intro acc v _ c hc; cases hc
  | cons c cs ih =>
    intro acc v h x hx
    rw [U256.from_dec_str_aux] at h
    by_cases hc : c.isDigit
    · simp only [hc, if_true] at h
      by_cases hr : acc * 10 + (c.toNat - 48) < U256.size
      · rw [if_pos hr] at h
        rcases List.mem_cons.mp hx with rfl | hx'
        · exact hc
        · exact ih _ _ h x hx'
      · rw [if_neg hr] at h; cases h
    · simp only [hc, if_false] at h; cases h

/-- C5 counterexample: the amount is stored as a 256-bit integer, not
an arbitrary-precision one: the decimal string whose value is 2^256,
which exceeds 2^64, fails to parse instead of round-tripping. -/
theorem C5_counterexample :
    U256.from_dec_str
        "115792089237316195423570985008687907853269984665640564039457584007913129639936" =
      .error .InvalidLength ∧
    (115792089237316195423570985008687907853269984665640564039457584007913129639936 : Nat) =
      2 ^ 256 ∧
    2 ^ 64 <
      (115792089237316195423570985008687907853269984665640564039457584007913129639936 : Nat) :=
  ⟨by decide, by norm_num, by norm_num⟩

/-- C5 amended: amount parsing maps every all-digit decimal string
with value below 2^256 to its exact numeric value (no precision loss)
and renders back to the exact base-10 string, covering in particular
values beyond 2^64; all-digit strings with value at least 2^256 fail
with InvalidLength, and strings containing a non-digit (negative signs
included) fail with a parse error. -/
theorem C5_amount_parsing (s : String) :
    ((∀ c ∈ s.data, c.isDigit) → dec_value s.data < 2 ^ 256 →
      U256.from_dec_str s = .ok (dec_value s.data)) ∧
    ((∀ c ∈ s.data, c.isDigit) → 2 ^ 256 ≤ dec_value s.data →
      U256.from_dec_str s = .error .InvalidLength) ∧
    ((∃ c ∈ s.data, ¬ c.isDigit) → ∃ e, U256.from_dec_str s = .error e) ∧
    (s.data.head? = some '-' → U256.from_dec_str s = .error .InvalidCharacter) ∧
    (U256.from_dec_str "1000" = .ok 1000 ∧ U256.display 1000 = "1000") ∧
    (U256.from_dec_str "18446744073709551616" = .ok 18446744073709551616 ∧
      U256.display 18446744073709551616 = "18446744073709551616") := by
  have h0 : (0 : Nat) < U256.size := Nat.pos_pow_of_pos 256 (by norm_num)
  refine ⟨?_, ?_, ?_, ?_, ⟨by decide, by decide⟩, ⟨by decide, by decide⟩⟩
  · intro hd hlt
    have hlt2 : dec_fold 0 s.data < U256.size := hlt
    rw [U256.from_dec_str, from_dec_str_aux_digits s.data 0 h0 hd, if_pos hlt2]
    rfl
  · intro hd hge
    have hge2 : ¬ dec_fold 0 s.data < U256.size := Nat.not_lt.mpr hge
    rw [U256.from_dec_str, from_dec_str_aux_digits s.data 0 h0 hd, if_neg hge2]
  · rintro ⟨c, hc, hnd⟩
    cases h : U256.from_dec_str s with
    | error e => exact ⟨e, rfl⟩
    | ok v => exact absurd (from_dec_str_aux_ok_digits s.data 0 v h c hc) hnd
  · intro hh
    cases hd : s.data with
    | nil => rw [hd] at hh; cases hh
    | cons c cs =>
      rw [hd] at hh
      have hcm : c = '-' := by
        have := hh
        simp only [List.head?_cons, Option.some.injEq] at this
        exact this
      subst hcm
      rw [U256.from_dec_str, hd, U256.from_dec_str_aux, if_neg (by decide)]

/-- Witness for C5 amended at concrete inputs. -/
theorem C5_amount_parsing_witness :
    U256.from_dec_str "1000" = .ok (dec_value "1000".data) ∧
    U256.from_dec_str "-1" = .error .InvalidCharacter := by
  constructor
  · exact (C5_amount_parsing "1000").1 (by decide) (by decide)
  · exact (C5_amount_parsing "-1").2.2.2.1 (by decide)

/-- C8: the CSV output is the fixed 13-column header followed by one
record per inscription in accumulation order; every data record has
its fields in header order, the four quote and fee columns empty and
the blockchain column equal to the constant Bitcoin literal. -/
theorem C8_write_csv_shape (inscriptions : List Inscription) (k : Nat)
    (hk : k < inscriptions.length) :
    (write_csv inscriptions).length = inscriptions.length + 1 ∧
    (write_csv inscriptions).head? = some csv_header ∧
    csv_header =
      ["Timestamp (UTC)", "Type", "Base Currency", "Base Amount",
       "Quote Currency", "Quote Amount", "Fee Currency", "Fee Amount",
       "From", "To", "Blockchain", "ID", "Description"] ∧
    csv_header.length = 13 ∧
    ∃ row,
      (write_csv inscriptions).get? (k + 1) = some row ∧
      row = csv_record (to_csv_row (inscriptions.get ⟨k, hk⟩)) ∧
      row.length = 13 ∧
      row.get? 0 = some (to_csv_row (inscriptions.get ⟨k, hk⟩)).timestamp ∧
      row.get? 1 = some (to_csv_row (inscriptions.get ⟨k, hk⟩)).category ∧
      row.get? 2 = some (to_csv_row (inscriptions.get ⟨k, hk⟩)).base_currency ∧
      row.get? 3 = some (to_csv_row (inscriptions.get ⟨k, hk⟩)).base_amount ∧
      row.get? 4 = some "" ∧ row.get? 5 = some "" ∧
      row.get? 6 = some "" ∧ row.get? 7 = some "" ∧
      row.get? 8 = some (to_csv_row (inscriptions.get ⟨k, hk⟩)).from_ ∧
      row.get? 9 = some (to_csv_row (inscriptions.get ⟨k, hk⟩)).to_ ∧
      row.get? 10 = some "Bitcoin" ∧
      row.get? 11 = some (to_csv_row (inscriptions.get ⟨k, hk⟩)).hash ∧
      row.get? 12 = some (to_csv_row (inscriptions.get ⟨k, hk⟩)).description := by
  refine ⟨by simp [write_csv], rfl, rfl, rfl, ?_⟩
  refine ⟨csv_record (to_csv_row (inscriptions.get ⟨k, hk⟩)), ?_, rfl, rfl,
    rfl, rfl, rfl, rfl, rfl, rfl, rfl, rfl, rfl, rfl, rfl, rfl, rfl⟩
  show (csv_header :: inscriptions.map fun i => csv_record (to_csv_row i)).get? (k + 1) = _
  rw [List.get?_cons_succ, List.get?_map, List.get?_eq_get hk]
  rfl

/-- Witness for C8 at a concrete singleton list. -/
theorem C8_write_csv_shape_witness :
    (write_csv [demoInscription]).length = [demoInscription].length + 1 :=
  (C8_write_csv_shape [demoInscription] 0 (by decide)).1

/-- A successful collect over process_inscription relates input and
output records pointwise, in order. -/
theorem traverse_inscriptions_forall2 (l : List InscriptionRaw) :
    ∀ is, traverse_inscriptions l = .ok is →
      List.Forall₂ (fun r i => process_inscription r = .ok i) l is := by
  induction l with
  | nil =>
    intro is h
    simp only [traverse_inscriptions] at h
    injection h with h2
    subst h2
    exact List.Forall₂.nil
  | cons r rs ih =>
    intro is h
    cases hp : process_inscription r with
    | err e => simp [traverse_inscriptions, hp] at h
    | panic => simp [traverse_inscriptions, hp] at h
    | ok i =>
      cases ht : traverse_inscriptions rs with
      | err e => simp [traverse_inscriptions, hp, ht] at h
      | panic => simp [traverse_inscriptions, hp, ht] at h
      | ok is' =>
        simp only [traverse_inscriptions, hp, ht] at h
        injection h with h2
        subst h2
        exact List.Forall₂.cons hp (ih is' ht)

/-- A single failing record fails the whole collect with exactly that
error of that record, regardless of the records after it. -/
theorem traverse_inscriptions_err (pre : List InscriptionRaw)
    (bad : InscriptionRaw) (rest : List InscriptionRaw) (e : String) :
    (∀ r ∈ pre, ∃ i, process_inscription r = .ok i) →
    process_inscription bad = .err e →
    traverse_inscriptions (pre ++ bad :: rest) = .err e := by
  induction pre with
  | nil =>
    intro _ hbad
    simp [traverse_inscriptions, hbad]
  | cons r pre ih =>
    intro hpre hbad
    obtain ⟨i, hi⟩ := hpre r (List.mem_cons_self r pre)
    have ht := ih (fun x hx => hpre x (List.mem_cons_of_mem r hx)) hbad
    simp [traverse_inscriptions, hi, ht]

/-- Splitting the page-index range at its first element. -/
theorem range_flatMap_shift {α : Type} (f : Nat → List α) (K : Nat) :
    (List.range (K + 1)).flatMap f =
      f 0 ++ (List.range K).flatMap (fun i => f (i + 1)) := by
  rw [List.range_succ_eq_map, List.flatMap_cons, List.flatMap_map]

/-- If the pages fetched at counters s, ..., s+K-1 all decode and
normalize successfully, the first K-1 report a page different from the
total page count and the last reports them equal, then the walk
starting at counter s succeeds and extends the accumulator by the
records of those K pages, in page order. -/
theorem fetch_pages_ok_window (responses : Nat → Except String ResponseRaw)
    (pags : Nat → Pagination) :
    ∀ K s acc fuel, 0 < K → K ≤ fuel →
      (∀ i, i < K → ∃ raw, responses (s + i + 1) = .ok raw ∧
        process_response raw = .ok (pags (s + i))) →
      (∀ i, i + 1 < K → (pags (s + i)).page ≠ (pags (s + i)).total_pages) →
      (pags (s + K - 1)).page = (pags (s + K - 1)).total_pages →
      fetch_pages responses acc s fuel =
        some (.ok (acc ++ (List.range K).flatMap fun i => (pags (s + i)).inscriptions)) := by
  intro K
  induction K with
  | zero => intro s acc fuel h0; exact absurd h0 (Nat.lt_irrefl 0)
  | succ K ih =>
    intro s acc fuel _ hfuel hpage hcont hterm
    obtain ⟨fuel', rfl⟩ : ∃ f, fuel = f + 1 := ⟨fuel - 1, by omega⟩
    obtain ⟨raw0, hr0, hp0⟩ := hpage 0 (by omega)
    have hr0' : responses (s + 1) = .ok raw0 := by simpa using hr0
    have hp0' : process_response raw0 = .ok (pags s) := by simpa using hp0
    rcases Nat.eq_zero_or_pos K with rfl | hKpos
    · have hterm' : (pags s).page = (pags s).total_pages := by simpa using hterm
      simp only [fetch_pages, hr0', hp0']
      rw [if_pos hterm', range_flatMap_shift]
      simp
    · have hcont0 : (pags s).page ≠ (pags s).total_pages := by
        simpa using hcont 0 (by omega)
      simp only [fetch_pages, hr0', hp0']
      rw [if_neg hcont0]
      have ihres := ih (s + 1) (acc ++ (pags s).inscriptions) fuel' hKpos (by omega)
        (fun i hi => by
          obtain ⟨raw, h1, h2⟩ := hpage (i + 1) (by omega)
          have e1 : s + (i + 1) = s + 1 + i := by omega
          rw [e1] at h1 h2
          exact ⟨raw, h1, h2⟩)
        (fun i hi => by
          have h2 := hcont (i + 1) (by omega)
          have e1 : s + (i + 1) = s + 1 + i := by omega
          rw [e1] at h2
          exact h2)
        (by
          have e1 : s + (K + 1) - 1 = s + 1 + K - 1 := by omega
          rw [e1] at hterm
          exact hterm)
      rw [ihres, range_flatMap_shift]
      simp only [show ∀ i, s + 1 + i = s + (i + 1) from fun i => by omega,
        List.append_assoc, Nat.add_zero]

/-- If the pages fetched at counters s, ..., s+M-2 decode and
normalize successfully and are non-terminal, and the fetch at counter
s+M-1 decodes but fails to normalize with error e, the whole walk
fails with e. -/
theorem fetch_pages_err_window (responses : Nat → Except String ResponseRaw)
    (pags : Nat → Pagination) :
    ∀ M s acc fuel (e : String), 0 < M → M ≤ fuel →
      (∀ i, i + 1 < M → ∃ raw, responses (s + i + 1) = .ok raw ∧
        process_response raw = .ok (pags (s + i))) →
      (∀ i, i + 1 < M → (pags (s + i)).page ≠ (pags (s + i)).total_pages) →
      (∃ rawM, responses (s + M) = .ok rawM ∧ process_response rawM = .err e) →
      fetch_pages responses acc s fuel = some (.err e) := by
  intro M
  induction M with
  | zero => intro s acc fuel e h0; exact absurd h0 (Nat.lt_irrefl 0)
  | succ M ih =>
    intro s acc fuel e _ hfuel hpage hcont hlast
    obtain ⟨fuel', rfl⟩ : ∃ f, fuel = f + 1 := ⟨fuel - 1, by omega⟩
    rcases Nat.eq_zero_or_pos M with rfl | hMpos
    · obtain ⟨rawM, hr, hp⟩ := hlast
      have hr' : responses (s + 1) = .ok rawM := by simpa using hr
      simp only [fetch_pages, hr', hp]
    · obtain ⟨raw0, hr0, hp0⟩ := hpage 0 (by omega)
      have hr0' : responses (s + 1) = .ok raw0 := by simpa using hr0
      have hp0' : process_response raw0 = .ok (pags s) := by simpa using hp0
      have hcont0 : (pags s).page ≠ (pags s).total_pages := by
        simpa using hcont 0 (by omega)
      simp only [fetch_pages, hr0', hp0']
      rw [if_neg hcont0]
      refine ih (s + 1) (acc ++ (pags s).inscriptions) fuel' e hMpos (by omega)
        (fun i hi => by
          obtain ⟨raw, h1, h2⟩ := hpage (i + 1) (by omega)
          have e1 : s + (i + 1) = s + 1 + i := by omega
          rw [e1] at h1 h2
          exact ⟨raw, h1, h2⟩)
        (fun i hi => by
          have h2 := hcont (i + 1) (by omega)
          have e1 : s + (i + 1) = s + 1 + i := by omega
          rw [e1] at h2
          exact h2)
        (by
          obtain ⟨rawM, h1, h2⟩ := hlast
          have e1 : s + (M + 1) = s + 1 + M := by omega
          rw [e1] at h1
          exact ⟨rawM, h1, h2⟩)

/-- C3: the pagination walker starts at local counter 0 and requests
API page p+1 for counter p; an empty data array fails with the
No Pagination found error, otherwise the first pagination block is
normalized; the records of each page are appended in page order, and the
walk terminates successfully exactly when the normalized page reports
its page number equal to its total page count: a run whose reported
page reaches totalPage after exactly K fetches returns the
concatenation of the records of all K pages, those of page 1 first. -/
theorem C3_fetch_pages_walk (responses : Nat → Except String ResponseRaw)
    (raws : Nat → ResponseRaw) (pags : Nat → Pagination) (K fuel : Nat)
    (hK : 0 < K) (hfuel : K ≤ fuel)
    (hresp : ∀ i, i < K → responses (i + 1) = .ok (raws i))
    (hproc : ∀ i, i < K → process_response (raws i) = .ok (pags i))
    (hcont : ∀ i, i + 1 < K → (pags i).page ≠ (pags i).total_pages)
    (hterm : (pags (K - 1)).page = (pags (K - 1)).total_pages) :
    (∀ raw : ResponseRaw, raw.data = [] →
      process_response raw = .err "No Pagination found") ∧
    (∀ (raw : ResponseRaw) p rest, raw.data = p :: rest →
      process_response raw = process_pagination p) ∧
    fetch_pages responses [] 0 fuel =
      some (.ok ((List.range K).flatMap fun i => (pags i).inscriptions)) := by
  refine ⟨?_, ?_, ?_⟩
  · intro raw h; simp [process_response, h]
  · intro raw p rest h; simp [process_response, h]
  · have hwin := fetch_pages_ok_window responses pags K 0 [] fuel hK hfuel
      (fun i hi => ⟨raws i, by simpa using hresp i hi, by simpa using hproc i hi⟩)
      (fun i hi => by simpa using hcont i hi)
      (by simpa using hterm)
    simpa using hwin

/-- Two-page demo pagination block. -/
def demoRawPage (p : String) : PaginationRaw :=
  { inscriptionsList := [demoRaw], limit := "50", page := p,
    totalPage := "2", totalTransaction := "2" }

/-- Demo response sequence with two pages. -/
def demoResponses : Nat → Except String ResponseRaw := fun n =>
  if n = 1 then .ok ⟨[demoRawPage "1"]⟩
  else if n = 2 then .ok ⟨[demoRawPage "2"]⟩
  else .error "no response"

/-- The raw response envelope of each demo fetch. -/
def demoRaws : Nat → ResponseRaw := fun n =>
  if n = 0 then ⟨[demoRawPage "1"]⟩ else ⟨[demoRawPage "2"]⟩

/-- The normalized page of each demo fetch. -/
def demoPags : Nat → Pagination := fun n =>
  if n = 0 then ⟨[demoInscription], 1, 2⟩ else ⟨[demoInscription], 2, 2⟩

/-- Witness for C3 on the concrete two-page demo run. -/
theorem C3_fetch_pages_walk_witness :
    fetch_pages demoResponses [] 0 2 =
      some (.ok ((List.range 2).flatMap fun i => (demoPags i).inscriptions)) :=
  (C3_fetch_pages_walk demoResponses demoRaws demoPags 2 2 (by decide) (by decide)
    (fun i hi => by
      have h2 : i = 0 ∨ i = 1 := by omega
      rcases h2 with rfl | rfl <;> decide)
    (fun i hi => by
      have h2 : i = 0 ∨ i = 1 := by omega
      rcases h2 with rfl | rfl <;> decide)
    (fun i hi => by
      have h2 : i = 0 := by omega
      subst h2
      decide)
    (by decide)).2.2

/-- C4: page normalization maps record normalization over every raw
record of the page preserving input order; any single failing record
fails the whole page with the error of that record, as does a page-index or
total-page-count string that does not parse as an integer; and since
the CSV is produced only after the whole walk succeeds, a failing
record on any page M yields an erroring run with zero CSV rows even
when all earlier pages normalized successfully. -/
theorem C4_process_pagination_page (raw : PaginationRaw) :
    (∀ pg, process_pagination raw = .ok pg →
      List.Forall₂ (fun r i => process_inscription r = .ok i)
        raw.inscriptionsList pg.inscriptions ∧
      pg.inscriptions.length = raw.inscriptionsList.length ∧
      i32.from_str raw.page = .ok pg.page ∧
      i32.from_str raw.totalPage = .ok pg.total_pages) ∧
    (∀ pre bad rest e, raw.inscriptionsList = pre ++ bad :: rest →
      (∀ r ∈ pre, ∃ i, process_inscription r = .ok i) →
      process_inscription bad = .err e →
      process_pagination raw = .err e) ∧
    (∀ is e, traverse_inscriptions raw.inscriptionsList = .ok is →
      i32.from_str raw.page = .error e →
      process_pagination raw = .err e) ∧
    (∀ is p e, traverse_inscriptions raw.inscriptionsList = .ok is →
      i32.from_str raw.page = .ok p →
      i32.from_str raw.totalPage = .error e →
      process_pagination raw = .err e) ∧
    (∀ (responses : Nat → Except String ResponseRaw) (pags : Nat → Pagination)
        (M fuel : Nat) (e : String), 0 < M → M ≤ fuel →
      (∀ i, i + 1 < M → ∃ rsp, responses (i + 1) = .ok rsp ∧
        process_response rsp = .ok (pags i)) →
      (∀ i, i + 1 < M → (pags i).page ≠ (pags i).total_pages) →
      (∃ rawM, responses M = .ok rawM ∧ process_response rawM = .err e) →
      main_rows responses fuel = some (.err e) ∧
      ∀ rows, main_rows responses fuel ≠ some (.ok rows)) := by
  refine ⟨?_, ?_, ?_, ?_, ?_⟩
  · intro pg h
    cases ht : traverse_inscriptions raw.inscriptionsList with
    | err e => simp [process_pagination, ht] at h
    | panic => simp [process_pagination, ht] at h
    | ok is =>
      cases hp : i32.from_str raw.page with
      | error e => simp [process_pagination, ht, hp] at h
      | ok p =>
        cases htp : i32.from_str raw.totalPage with
        | error e => simp [process_pagination, ht, hp, htp] at h
        | ok t =>
          simp only [process_pagination, ht, hp, htp] at h
          injection h with h2
          subst h2
          have hf := traverse_inscriptions_forall2 raw.inscriptionsList is ht
          exact ⟨hf, (List.Forall₂.length_eq hf).symm, rfl, rfl⟩
  · intro pre bad rest e hsplit hpre hbad
    have ht := traverse_inscriptions_err pre bad rest e hpre hbad
    simp [process_pagination, hsplit, ht]
  · intro is e ht hp
    simp [process_pagination, ht, hp]
  · intro is p e ht hp htp
    simp [process_pagination, ht, hp, htp]
  · intro responses pags M fuel e hM hfuel hpage hcont hlast
    have hfe := fetch_pages_err_window responses pags M 0 [] fuel e hM hfuel
      (fun i hi => by simpa using hpage i hi)
      (fun i hi => by simpa using hcont i hi)
      (by simpa using hlast)
    constructor
    · simp [main_rows, hfe]
    · intro rows
      simp [main_rows, hfe]

/-- Concrete page whose second record has a failing status. -/
def demoBadPage : PaginationRaw :=
  { inscriptionsList := [demoRaw, { demoRaw with state := "fail" }],
    limit := "50", page := "1", totalPage := "1", totalTransaction := "2" }

/-- Responses whose single page has an empty data array. -/
def demoEmptyResponses : Nat → Except String ResponseRaw := fun n =>
  if n = 1 then .ok ⟨[]⟩ else .error "no response"

/-- Witness for C4: a page whose second record fails yields the state
error for the whole page, and a run whose response cannot be
normalized produces an error and no CSV rows. -/
theorem C4_process_pagination_page_witness :
    process_pagination demoBadPage = .err "Unknown state: fail" ∧
    main_rows demoEmptyResponses 1 = some (.err "No Pagination found") := by
  constructor
  · exact (C4_process_pagination_page demoBadPage).2.1 [demoRaw]
      { demoRaw with state := "fail" } [] "Unknown state: fail" rfl
      (fun r hr => by
        simp only [List.mem_singleton] at hr
        subst hr
        exact ⟨demoInscription, by decide⟩)
      (by decide)
  · exact ((C4_process_pagination_page demoBadPage).2.2.2.2 demoEmptyResponses
      (fun _ => ⟨[], 1, 1⟩) 1 1 "No Pagination found" (by decide) (by decide)
      (fun i hi => absurd hi (by omega))
      (fun i hi => absurd hi (by omega))
      ⟨⟨[]⟩, by decide, by decide⟩).1

end Oklink
